import Mathlib

/-!
Verification of the Race Lifecycle Monitor + Continuous Ingestion Pipeline of
the endurance-racing-tracker repository (`src/backend/`), as a shallow
embedding in Lean 4.

Conventions of the embedding:
* Python `datetime` instants are modelled as rational numbers of seconds
  (UTC); `timedelta.total_seconds()` is subtraction, and the float division
  by 60 in `race_monitor.py` is rational division.
* Python strings are modelled as `List Char`; `None`-able strings as
  `Option (List Char)`.
* Python exceptions are explicit: a call that may raise returns an
  `Except PyErr _` (or carries an `Option PyErr` next to its partial state
  effect when the mutation survives the exception, as object mutation does
  in Python).
* Each definition mirrors one function of the source, keeping its name.
-/

namespace EnduranceTracker

/-- Python exception kinds that the embedded code can raise. -/
inductive PyErr where
  | typeError
  | attributeError
  | valueError
  | indexError
  deriving DecidableEq, Repr

/-! ## Schedule (`src/backend/schedule.py`) -/

/-- One entry of `WEC_SCHEDULE` / `IMSA_SCHEDULE`: a scheduled event with
name, track, scheduled start (seconds), series tag and timing URL. -/
structure RaceEvent where
  name : String
  track : String
  date : ℚ
  series : String
  timing_url : String
  deriving DecidableEq, Repr

/-- Python's `min(upcoming, key=lambda x: x.date)`: the first element of the
list whose `date` is minimal (`min` keeps the earlier element on ties). -/
def minByDate (l : List RaceEvent) : Option RaceEvent :=
  match l with
  | [] => none
  | r :: rs => some (rs.foldl (fun best x => if x.date < best.date then x else best) r)

/-- `schedule.get_next_race`: the chronologically nearest event whose
`date` is strictly after `now`, or `none` when no such event exists. -/
def get_next_race (races : List RaceEvent) (now : ℚ) : Option RaceEvent :=
  minByDate (races.filter (fun r => now < r.date))

/-- `schedule.is_race_live`: the (divergent) liveness test of `schedule.py`,
using hours and no pre-roll.  Present in the source but never invoked by the
Monitor; kept here because the spec flags the divergence. -/
def is_race_live (race : RaceEvent) (now : ℚ) (tolerance_hours : ℚ := 12) : Bool :=
  let time_diff := (now - race.date) / 3600
  decide (0 ≤ time_diff ∧ time_diff ≤ tolerance_hours)

/-! ## The Monitor's inline liveness check (`race_monitor.py`, lines 49-56) -/

/-- The liveness window's pre-roll, in minutes (`-30` in the source). -/
def preRollMinutes : ℚ := 30

/-- The liveness window's maximal duration, in minutes (`720` in the source). -/
def maxDurationMinutes : ℚ := 720

/-- `RaceMonitor.check_for_live_race`'s inline liveness computation:
`time_diff = (now - race_time).total_seconds() / 60` and
`is_live = -30 <= time_diff <= 720`. -/
def monitorIsLive (now race_time : ℚ) : Bool :=
  let time_diff := (now - race_time) / 60
  decide (-30 ≤ time_diff ∧ time_diff ≤ 720)


/-! ## Models of Python primitive string/number operations

Python strings are `List Char`.  `int(s)` and `float(s)` are modelled for
the decimal forms a timing page renders (optional surrounding whitespace,
optional sign, digits, an optional fractional part); on any other input
they yield `none`, standing for the raised `ValueError` that the source's
`except` clauses catch. -/

/-- ASCII whitespace, as `str.strip()` and `str.split()` see it. -/
def isPySpace (c : Char) : Bool :=
  c == ' ' || c == '\t' || c == '\n' || c == '\r'

/-- Drop leading whitespace. -/
def dropSpaces : List Char → List Char
  | [] => []
  | c :: cs => if isPySpace c then dropSpaces cs else c :: cs

/-- `str.strip()`: drop whitespace from both ends. -/
def pyStrip (l : List Char) : List Char :=
  (dropSpaces (dropSpaces l).reverse).reverse

/-- All characters are ASCII digits. -/
def allDigits : List Char → Bool
  | [] => true
  | c :: cs => c.isDigit && allDigits cs

/-- Decimal value of a digit string, as an integer accumulator. -/
def natValZ : ℤ → List Char → ℤ
  | acc, [] => acc
  | acc, c :: cs => natValZ (10 * acc + (c.toNat - 48 : ℕ)) cs

/-- Value of an unsigned decimal integer literal, if well formed. -/
def digitsValZ (l : List Char) : Option ℤ :=
  if l = [] then none
  else if allDigits l then some (natValZ 0 l) else none

/-- Model of Python `int(s)`: strip, optional sign, decimal digits;
`none` models the raised `ValueError` otherwise. -/
def pyInt (l : List Char) : Option ℤ :=
  match pyStrip l with
  | '+' :: rest => digitsValZ rest
  | '-' :: rest => (digitsValZ rest).map Neg.neg
  | rest => digitsValZ rest

/-- Decimal value of a digit string, as a rational accumulator. -/
def natValQ : ℚ → List Char → ℚ
  | acc, [] => acc
  | acc, c :: cs => natValQ (10 * acc + (c.toNat - 48 : ℕ)) cs

/-- Value of a fractional digit string `fp` as `0.fp`. -/
def fracValQ : List Char → ℚ
  | [] => 0
  | c :: cs => (fracValQ cs + (c.toNat - 48 : ℕ)) / 10

/-- Leading digits of a string. -/
def takeDigits : List Char → List Char
  | [] => []
  | c :: cs => if c.isDigit then c :: takeDigits cs else []

/-- What remains after the leading digits. -/
def dropDigits : List Char → List Char
  | [] => []
  | c :: cs => if c.isDigit then dropDigits cs else c :: cs

/-- Unsigned part of Python `float(s)`: `digits`, `digits.`, `digits.digits`
or `.digits` (at least one digit in total). -/
def pyFloatBody (l : List Char) : Option ℚ :=
  match dropDigits l with
  | [] => if l = [] then none else some (natValQ 0 l)
  | '.' :: fp =>
    if allDigits fp && (!(takeDigits l).isEmpty || !fp.isEmpty) then
      some (natValQ 0 (takeDigits l) + fracValQ fp)
    else none
  | _ => none

/-- Model of Python `float(s)`: strip, optional sign, decimal form;
`none` models the raised `ValueError` otherwise. -/
def pyFloat (l : List Char) : Option ℚ :=
  match pyStrip l with
  | '+' :: rest => pyFloatBody rest
  | '-' :: rest => (pyFloatBody rest).map Neg.neg
  | rest => pyFloatBody rest

/-- Python `s.split(sep)` for a single-character separator: splits at every
occurrence, keeping empty pieces (always at least one piece). -/
def splitOnChar (sep : Char) : List Char → List (List Char)
  | [] => [[]]
  | c :: cs =>
    let r := splitOnChar sep cs
    if c = sep then [] :: r
    else
      match r with
      | [] => [[c]]
      | h :: t => (c :: h) :: t

/-- Does `l` start with `pat`? -/
def seqStartsWith : List Char → List Char → Bool
  | _, [] => true
  | [], _ :: _ => false
  | c :: cs, p :: ps => c = p && seqStartsWith cs ps

/-- Python `pat in l` for strings: contiguous-subsequence test. -/
def containsSeq (pat : List Char) : List Char → Bool
  | [] => pat.isEmpty
  | c :: cs => seqStartsWith (c :: cs) pat || containsSeq pat cs

/-- Longest whitespace-free head of the string. -/
def takeNonSpace : List Char → List Char
  | [] => []
  | c :: cs => if isPySpace c then [] else c :: takeNonSpace cs

/-- Python `s.split()[0]` (whitespace split): the first token, or `none`
for the `IndexError` raised when the string holds no token. -/
def firstWsToken (l : List Char) : Option (List Char) :=
  match dropSpaces l with
  | [] => none
  | rest => some (takeNonSpace rest)

/-- Python `s.replace('+', '')`: delete every plus sign. -/
def stripPlus (l : List Char) : List Char :=
  l.filter (fun c => c != '+')

/-- Python `s.upper()` for the ASCII texts at hand. -/
def upperChars (l : List Char) : List Char :=
  l.map Char.toUpper

/-! ## Per-field extraction (`WECScraper._safe_extract*`, ingest.py 106-148) -/

/-- Outcome of `element.select_one(selector)` followed by `.text`: the
lookup may raise, match nothing (`None` in Python), or produce a text. -/
inductive RawField where
  | raises
  | absent
  | text (t : List Char)
  deriving DecidableEq, Repr

/-- `_safe_extract`: `found.text.strip() if found else None`, every
exception caught to `None`. -/
def safe_extract : RawField → Option (List Char)
  | .raises => none
  | .absent => none
  | .text t => some (pyStrip t)

/-- `_safe_extract_int`: `int(text) if text else None`, exceptions caught
to `None` (an empty string is falsy, hence also `None`). -/
def safe_extract_int (f : RawField) : Option ℤ :=
  match safe_extract f with
  | none => none
  | some [] => none
  | some t => pyInt t

/-- `_safe_extract_float` (ingest.py 122-134): on a text containing `':'`,
`int(parts[0]) * 60 + float(parts[1])`; otherwise `float(text)`; any
exception (including `':' in None`) caught to `None`. -/
def safe_extract_float (f : RawField) : Option ℚ :=
  match safe_extract f with
  | none => none
  | some t =>
    if t.contains ':' then
      match splitOnChar ':' t with
      | p0 :: p1 :: _ =>
        match pyInt p0, pyFloat p1 with
        | some m, some s => some ((m : ℚ) * 60 + s)
        | _, _ => none
      | _ => none
    else pyFloat t

/-- `_safe_extract_gap` (ingest.py 136-148): falsy text (`None` or the
empty string) and the literal `Leader` give `0.0`; a text containing `LAP`
(upper-cased) gives `int(first token without plus signs) * 100` — 100
seconds being the approximate one-lap proxy; otherwise
`float(text without plus signs)`; exceptions caught to `None`. -/
def safe_extract_gap (f : RawField) : Option ℚ :=
  match safe_extract f with
  | none => some 0
  | some t =>
    if t = [] ∨ t = ['L', 'e', 'a', 'd', 'e', 'r'] then some 0
    else if containsSeq ['L', 'A', 'P'] (upperChars t) then
      match firstWsToken t with
      | none => none
      | some tok =>
        match pyInt (stripPlus tok) with
        | some n => some ((n : ℚ) * 100)
        | none => none
    else
      match pyFloat (stripPlus t) with
      | some q => some q
      | none => none

/-! ## Snapshot parsing and fetching (`WECScraper`, ingest.py 46-104) -/

/-- One parsed car record (`car_data` dict): every field except the pit
flag is optional — extraction failure leaves it absent. -/
structure CarRecord where
  car_number : Option (List Char)
  team_name : Option (List Char)
  car_class : Option (List Char)
  position : Option ℤ
  laps_completed : Option ℤ
  last_lap_time : Option ℚ
  best_lap_time : Option ℚ
  gap_to_leader : Option ℚ
  in_pit : Bool
  deriving DecidableEq, Repr

/-- One `.timing-row` element as the extraction helpers see it: the raw
outcome of each selector lookup, plus the element's CSS class list
(`row.get('class', [])`). -/
structure RowData where
  car_number : RawField
  team_name : RawField
  car_class : RawField
  position : RawField
  laps : RawField
  last_lap : RawField
  best_lap : RawField
  gap : RawField
  classes : List (List Char)
  deriving DecidableEq, Repr

/-- The `car_data` dict built for one row (ingest.py 87-97): every field
through its safe extractor, `in_pit` from the class list. -/
def wecCarData (row : RowData) : CarRecord :=
  { car_number := safe_extract row.car_number
    team_name := safe_extract row.team_name
    car_class := safe_extract row.car_class
    position := safe_extract_int row.position
    laps_completed := safe_extract_int row.laps
    last_lap_time := safe_extract_float row.last_lap
    best_lap_time := safe_extract_float row.best_lap
    gap_to_leader := safe_extract_gap row.gap
    in_pit := row.classes.contains ['p', 'i', 't'] }

/-- The snapshot dict `{series, timestamp, cars}` returned by
`_parse_wec_html`. -/
structure WECData where
  series : String
  timestamp : ℚ
  cars : List CarRecord
  deriving DecidableEq, Repr

/-- The fetched document as `_parse_wec_html` sees it: building the soup
may itself raise (before the function's `try`), else selecting
`.timing-row` either raises inside the `try` or yields the rows. -/
inductive HtmlDoc where
  | unparseable
  | parsed (select : Except Unit (List RowData))
  deriving Repr

/-- `_parse_wec_html` (ingest.py 69-104): an unparseable document raises
out of the function; a failing row selection is caught by the internal
`except`, leaving `cars` empty; otherwise each row maps to a car record. -/
def parse_wec_html (now : ℚ) : HtmlDoc → Except PyErr WECData
  | .unparseable => .error .valueError
  | .parsed sel =>
    .ok { series := "WEC", timestamp := now,
          cars := match sel with
                  | .error _ => []
                  | .ok rows => rows.map wecCarData }

/-- What the transport layer produced for one `session.get`. -/
inductive TransportResult where
  | timeout
  | connectionError
  | response (status : ℕ) (doc : HtmlDoc)
  deriving Repr

/-- `WECScraper.fetch_live_data` (ingest.py 46-67): a non-200 status,
timeout, or any raised exception yields the empty dict `{}` (here `none`);
otherwise the parsed snapshot. -/
def fetch_live_data (now : ℚ) : TransportResult → Option WECData
  | .timeout => none
  | .connectionError => none
  | .response status doc =>
    if status ≠ 200 then none
    else
      match parse_wec_html now doc with
      | .ok d => some d
      | .error _ => none

/-! ## The ingestion manager (`DataIngestionManager`, ingest.py 258-304) -/

/-- State of the aiohttp session owned by `WECScraper` (`self.session`):
never created, open, or closed.  `WECScraper.close` does not reset the
attribute, and closing an already-closed aiohttp session is a no-op. -/
inductive SessState where
  | noSession
  | openSession
  | closedSession
  deriving DecidableEq, Repr

/-- State of the Selenium driver owned by `IMSAScraper` (`self.driver`):
`close` quits the driver and resets the attribute to `None`. -/
inductive DriverState where
  | noDriver
  | openDriver
  deriving DecidableEq, Repr

/-- The two Snapshot Source variants with their resource state. -/
inductive ScraperInst where
  | wec (session : SessState)
  | imsa (driver : DriverState)
  deriving DecidableEq, Repr

/-- `close()` of either scraper (ingest.py 41-44 and 170-174): the WEC
variant closes the session when one exists (leaving the attribute bound);
the IMSA variant quits the driver and sets it to `None`. -/
def scraperClose : ScraperInst → ScraperInst
  | .wec .openSession => .wec .closedSession
  | .wec s => .wec s
  | .imsa _ => .imsa .noDriver

/-- Runtime state of one `DataIngestionManager`.  The Python attributes
are `series`, `scraper` and `is_running`; `activeLoops` is the number of
`start_ingestion` coroutine bodies currently executing their
`while self.is_running` loop (each call to `start_ingestion` enters its
own loop — the method has no already-running guard). -/
structure DataIngestionManager where
  series : String
  scraper : Option ScraperInst
  is_running : Bool
  activeLoops : ℕ
  deriving DecidableEq, Repr

/-- `DataIngestionManager.__init__` (ingest.py 261-269): binds the scraper
variant matching the series, or no scraper at all for an unknown series. -/
def dimInit (series : String) : DataIngestionManager :=
  { series := series
    scraper :=
      if series = "WEC" then some (.wec .noSession)
      else if series = "IMSA" then some (.imsa .noDriver)
      else none
    is_running := false
    activeLoops := 0 }

/-- The immediate effect of calling `DataIngestionManager.start_ingestion`
(ingest.py 271-277): `self.is_running = True`, unconditionally, and the
calling coroutine enters its own fetch loop. -/
def dimStartIngestionEnter (m : DataIngestionManager) : DataIngestionManager :=
  { m with is_running := true, activeLoops := m.activeLoops + 1 }

/-- Result of one `fetch_live_data` call as the loop body observes it:
the fetch raised, or returned a dict (`none` models the falsy `{}`). -/
inductive FetchOutcome where
  | raised
  | fetched (data : Option WECData)

/-- One iteration of the `while self.is_running` body (ingest.py 278-293),
given the outcome the bound scraper's fetch would produce.  A manager with
no scraper raises `AttributeError` at the fetch call instead; every
exception is caught by the loop's `except`, which sleeps and continues.
Returns the unchanged state, the snapshot passed to `callback` (if any),
and `1` for the sleep performed on both paths. -/
def dimLoopIter (m : DataIngestionManager) (o : FetchOutcome) :
    DataIngestionManager × Option WECData × ℕ :=
  let eff := if m.scraper.isNone then FetchOutcome.raised else o
  match eff with
  | .raised => (m, none, 1)
  | .fetched none => (m, none, 1)
  | .fetched (some d) => if d.cars = [] then (m, none, 1) else (m, some d, 1)

/-- The ingestion loop run against a finite prefix of fetch outcomes:
iterate while `is_running` holds, collecting the snapshots delivered to
`callback` in order, and counting sleeps. -/
def dimRunLoop (m : DataIngestionManager) :
    List FetchOutcome → DataIngestionManager × List WECData × ℕ
  | [] => (m, [], 0)
  | o :: os =>
    if m.is_running then
      let (m1, cb, s1) := dimLoopIter m o
      let (m2, cbs, s2) := dimRunLoop m1 os
      (m2, cb.toList ++ cbs, s1 + s2)
    else (m, [], 0)

/-- `DataIngestionManager.stop_ingestion` (ingest.py 295-304): clears
`is_running`, then closes the scraper.  On a manager with no scraper
bound, `self.scraper.close()` raises an uncaught `AttributeError` — after
the flag was already cleared; the pair carries the mutated state together
with the exception, mirroring Python object mutation surviving a raise. -/
def dimStopIngestion (m : DataIngestionManager) :
    DataIngestionManager × Option PyErr :=
  let m1 := { m with is_running := false }
  match m1.scraper with
  | none => (m1, some .attributeError)
  | some s => ({ m1 with scraper := some (scraperClose s) }, none)

/-! ## Database rows and the Race Monitor (`race_monitor.py`) -/

/-- One `Race` ORM row, with the columns the monitor touches. -/
structure RaceRow where
  series : String
  name : String
  track : String
  start_time : ℚ
  is_active : Bool
  end_time : Option ℚ
  deriving DecidableEq, Repr

/-- The race table, in insertion order. -/
abbrev Db := List RaceRow

/-- Mutable state of the `RaceMonitor` singleton. -/
structure MonitorState where
  ingestion_manager : Option DataIngestionManager
  current_race_name : Option String
  is_running : Bool
  deriving DecidableEq, Repr

/-- `db.query(Race).update({"is_active": False})`. -/
def deactivateAll (db : Db) : Db :=
  db.map (fun r => { r with is_active := false })

/-- `db.query(Race).filter(Race.is_active == True).first()`: index of the
first active row. -/
def findFirstActive (db : Db) : Option ℕ :=
  db.findIdx? (fun r => r.is_active)

/-- Mark the `i`-th row ended: `race.is_active = False; race.end_time = now`. -/
def markEnded (now : ℚ) : Db → ℕ → Db
  | [], _ => []
  | r :: rs, 0 => { r with is_active := false, end_time := some now } :: rs
  | r :: rs, i + 1 => r :: markEnded now rs i

/-- Number of active race rows. -/
def activeCount (db : Db) : ℕ :=
  (db.filter (fun r => r.is_active)).length

/-- The keyword parameters `DataIngestionManager.__init__` accepts
(besides `self`); `series` carries a default. -/
def dimInitParams : List String := ["series"]

/-- Python keyword-call binding for `DataIngestionManager(**kwargs)`: an
unexpected keyword raises `TypeError` before the body runs; otherwise the
manager is constructed with the given (or default) series. -/
def dimCallInitKw (kwargs : List (String × String)) :
    Except PyErr DataIngestionManager :=
  if kwargs.all (fun kv => dimInitParams.contains kv.1) then
    .ok (dimInit (((kwargs.find? (fun kv => kv.1 = "series")).map Prod.snd).getD "WEC"))
  else .error .typeError

/-- `DataIngestionManager.start_ingestion` requires the positional
parameter `callback`; calling it with a different number of positional
arguments raises `TypeError` at call time, before any task is created. -/
def dimCallStart (m : DataIngestionManager) (posArgs : ℕ) :
    Except PyErr DataIngestionManager :=
  if posArgs = 1 then .ok (dimStartIngestionEnter m) else .error .typeError

/-- `RaceMonitor.stop_ingestion` (race_monitor.py 114-148): when a manager
is bound, stop it; if that raises, the outer `except` logs and leaves the
monitor untouched apart from the manager's own mutation.  Otherwise mark
the first active race ended and committed, invoke the export collaborator
(whose failure the inner `except` catches — `exportOk` affects logging
only), and clear the session fields.  The third component counts export
invocations. -/
def monitorStopIngestion (st : MonitorState) (db : Db) (now : ℚ)
    (exportOk : Bool) : MonitorState × Db × ℕ :=
  match st.ingestion_manager with
  | none => (st, db, 0)
  | some m =>
    match dimStopIngestion m with
    | (m1, some _) => ({ st with ingestion_manager := some m1 }, db, 0)
    | (_, none) =>
      match findFirstActive db with
      | none => ({ st with ingestion_manager := none, current_race_name := none }, db, 0)
      | some i =>
        let db2 := markEnded now db i
        let _ := exportOk
        ({ st with ingestion_manager := none, current_race_name := none }, db2, 1)

/-- `RaceMonitor.start_ingestion` (race_monitor.py 73-112): stop any
existing ingestion, deactivate every race row and commit a fresh active
one, then construct the manager — passing the keyword `timing_url`, which
`DataIngestionManager.__init__` does not accept — and start it with no
callback argument.  Each `TypeError` is caught by the surrounding
`except`, which logs `Failed to start ingestion` and returns. -/
def monitorStartIngestion (st : MonitorState) (db : Db) (now : ℚ)
    (exportOk : Bool) (race : RaceEvent) : MonitorState × Db × ℕ :=
  let (st1, db1, e1) := monitorStopIngestion st db now exportOk
  let db2 := deactivateAll db1 ++
    [{ series := race.series, name := race.name, track := race.track,
       start_time := race.date, is_active := true, end_time := none }]
  match dimCallInitKw [("series", race.series), ("timing_url", race.timing_url)] with
  | .error _ => (st1, db2, e1)
  | .ok mgr =>
    let st2 := { st1 with ingestion_manager := some mgr }
    match dimCallStart mgr 0 with
    | .error _ => (st2, db2, e1)
    | .ok mgr2 =>
      ({ st2 with ingestion_manager := some mgr2,
                  current_race_name := some race.name }, db2, e1)

/-- Observable outcome of one monitor poll. -/
structure MonitorStepResult where
  st : MonitorState
  db : Db
  exports : ℕ
  stoppedLoop : Bool
  deriving Repr

/-- `RaceMonitor.check_for_live_race` (race_monitor.py 40-71): one poll.
`stoppedLoop` records whether `stop_ingestion` ran against a bound
manager (clearing its running flag — `stop_ingestion` sets
`is_running = False` before closing the scraper). -/
def monitorCheckForLiveRace (races : List RaceEvent) (now : ℚ)
    (exportOk : Bool) (st : MonitorState) (db : Db) : MonitorStepResult :=
  match get_next_race races now with
  | none =>
    let (st1, db1, e1) := monitorStopIngestion st db now exportOk
    ⟨st1, db1, e1, st.ingestion_manager.isSome⟩
  | some race =>
    if monitorIsLive now race.date then
      if st.ingestion_manager = none ∨ st.current_race_name ≠ some race.name then
        let (st1, db1, e1) := monitorStartIngestion st db now exportOk race
        ⟨st1, db1, e1, st.ingestion_manager.isSome⟩
      else ⟨st, db, 0, false⟩
    else
      if st.ingestion_manager.isSome then
        let (st1, db1, e1) := monitorStopIngestion st db now exportOk
        ⟨st1, db1, e1, true⟩
      else ⟨st, db, 0, false⟩

/-- Input of one monitor poll: the schedule, the clock, and whether the
export collaborator would succeed. -/
structure PollInput where
  races : List RaceEvent
  now : ℚ
  exportOk : Bool

/-- A sequence of monitor polls from a given state. -/
def runMonitor (st : MonitorState) (db : Db) :
    List PollInput → MonitorState × Db
  | [] => (st, db)
  | p :: ps =>
    let r := monitorCheckForLiveRace p.races p.now p.exportOk st db
    runMonitor r.st r.db ps

/-- A concrete scheduled event, used for concrete evaluations: start
instant `100` (seconds), queried at `now = 50` (50 seconds before the
start, inside the 30-minute pre-roll). -/
def sampleRace : RaceEvent :=
  { name := "6 Hours of Qatar", track := "Losail International Circuit",
    date := 100, series := "WEC", timing_url := "https://timing.example" }

/-! ## Theorems about the schedule and the liveness window -/

/-- Helper: membership of `minByDate`'s fold accumulator. -/
theorem foldlMinByDate_mem (rs : List RaceEvent) (r : RaceEvent) :
    rs.foldl (fun best x => if x.date < best.date then x else best) r ∈ r :: rs := by
  induction rs generalizing r with
  | nil => simp
  | cons a as ih =>
    simp only [List.foldl_cons]
    have h := ih (if a.date < r.date then a else r)
    rcases List.mem_cons.mp h with h | h
    · rw [h]
      by_cases hc : a.date < r.date
      · simp [hc]
      · simp [hc]
    · simp only [List.mem_cons]
      right; right; exact h

/-- `minByDate` returns an element of its argument. -/
theorem minByDate_mem {l : List RaceEvent} {r : RaceEvent}
    (h : minByDate l = some r) : r ∈ l := by
  match l with
  | [] => simp [minByDate] at h
  | a :: as =>
    simp only [minByDate, Option.some.injEq] at h
    have := foldlMinByDate_mem as a
    rw [h] at this
    exact this

/-- `get_next_race` returns an event of the schedule. -/
theorem get_next_race_mem {races : List RaceEvent} {now : ℚ} {r : RaceEvent}
    (h : get_next_race races now = some r) : r ∈ races := by
  have hm := minByDate_mem h
  exact (List.mem_filter.mp hm).1

/-- `get_next_race` returns only events strictly after `now`. -/
theorem get_next_race_future {races : List RaceEvent} {now : ℚ} {r : RaceEvent}
    (h : get_next_race races now = some r) : now < r.date := by
  have hm := minByDate_mem h
  have := (List.mem_filter.mp hm).2
  exact of_decide_eq_true this

/-- The monitor's minute-based liveness test, characterised in seconds. -/
theorem monitorIsLive_iff (now scheduled_start : ℚ) :
    monitorIsLive now scheduled_start = true ↔
      -(preRollMinutes * 60) ≤ now - scheduled_start ∧
        now - scheduled_start ≤ maxDurationMinutes * 60 := by
  simp only [monitorIsLive, preRollMinutes, maxDurationMinutes, decide_eq_true_eq]
  rw [le_div_iff₀ (by norm_num : (0:ℚ) < 60), div_le_iff₀ (by norm_num : (0:ℚ) < 60)]
  norm_num

/-- C3: the Monitor classifies the next event as live iff
`-pre_roll ≤ now - scheduled_start ≤ max_duration`, with `pre_roll` = 30
minutes and `max_duration` = 720 minutes, and both boundary values are
classified as live (closed interval). -/
theorem C3_monitor_liveness_window :
    (∀ now scheduled_start : ℚ,
      monitorIsLive now scheduled_start = true ↔
        -(preRollMinutes * 60) ≤ now - scheduled_start ∧
          now - scheduled_start ≤ maxDurationMinutes * 60) ∧
    (∀ scheduled_start : ℚ,
      monitorIsLive (scheduled_start - preRollMinutes * 60) scheduled_start = true ∧
      monitorIsLive (scheduled_start + maxDurationMinutes * 60) scheduled_start = true) := by
  refine ⟨monitorIsLive_iff, fun s => ⟨?_, ?_⟩⟩ <;>
    · rw [monitorIsLive_iff]
      simp only [preRollMinutes, maxDurationMinutes]
      ring_nf
      norm_num

/-- Witness for C3 at concrete instants: `now` exactly `pre_roll` before the
start, and exactly `max_duration` after it, are both live. -/
theorem C3_monitor_liveness_window_witness :
    monitorIsLive (-1800) 0 = true ∧ monitorIsLive 43200 0 = true := by
  constructor
  · exact (C3_monitor_liveness_window.1 (-1800) 0).mpr
      (by simp only [preRollMinutes, maxDurationMinutes]; norm_num)
  · exact (C3_monitor_liveness_window.1 43200 0).mpr
      (by simp only [preRollMinutes, maxDurationMinutes]; norm_num)

/-! ## Theorems about the ingestion manager -/

/-- `close()` is idempotent on either scraper variant. -/
theorem scraperClose_idem (s : ScraperInst) :
    scraperClose (scraperClose s) = scraperClose s := by
  cases s with
  | wec ss => cases ss <;> rfl
  | imsa d => rfl

/-- The ingestion loop of a manager with a bound scraper: state unchanged,
one sleep per outcome, callbacks are exactly the non-empty successful
snapshots in order. -/
theorem dimRunLoop_eq (m : DataIngestionManager) (hrun : m.is_running = true)
    (hscr : m.scraper.isNone = false) (os : List FetchOutcome) :
    dimRunLoop m os =
      (m, os.filterMap (fun o =>
          match o with
          | .fetched (some d) => if d.cars = [] then none else some d
          | _ => none),
        os.length) := by
  induction os with
  | nil => simp [dimRunLoop]
  | cons o os ih =>
    cases o with
    | raised => simp [dimRunLoop, dimLoopIter, hrun, hscr, ih, Nat.add_comm]
    | fetched data =>
      cases data with
      | none => simp [dimRunLoop, dimLoopIter, hrun, hscr, ih, Nat.add_comm]
      | some d =>
        by_cases hc : d.cars = [] <;>
          simp [dimRunLoop, dimLoopIter, hrun, hscr, ih, hc, Nat.add_comm]

/-- C2: a running Ingestion Loop with a bound scraper never terminates on a
fetch failure: every outcome sequence is consumed with the state unchanged
(so the loop is still running), one sleep per iteration, and the callback
is invoked exactly once per successful fetch with a non-empty car list, in
fetch order.  In particular, with fetches failing on attempts 1 and 2 and
succeeding on attempt 3, the callback runs exactly once, after the third
attempt, and the loop is still running afterwards. -/
theorem C2_loop_never_terminates_on_failure (m : DataIngestionManager)
    (hrun : m.is_running = true) (hscr : m.scraper.isNone = false) :
    (∀ os : List FetchOutcome,
      dimRunLoop m os =
        (m, os.filterMap (fun o =>
            match o with
            | .fetched (some d) => if d.cars = [] then none else some d
            | _ => none),
          os.length)) ∧
    (∀ d : WECData, d.cars ≠ [] →
      (dimRunLoop m [.raised, .raised, .fetched (some d)]).2.1 = [d] ∧
      (dimRunLoop m [.raised, .raised, .fetched (some d)]).2.2 = 3 ∧
      (dimRunLoop m [.raised, .raised, .fetched (some d)]).1.is_running = true) := by
  refine ⟨dimRunLoop_eq m hrun hscr, fun d hd => ?_⟩
  rw [dimRunLoop_eq m hrun hscr]
  simp [List.filterMap, hd, hrun]

/-- Witness for C2: the concrete three-attempt scenario on a freshly
started WEC manager. -/
theorem C2_loop_never_terminates_on_failure_witness :
    (dimRunLoop (dimStartIngestionEnter (dimInit "WEC"))
        [.raised, .raised, .fetched (some ⟨"WEC", 0,
          [⟨none, none, none, none, none, none, none, none, false⟩]⟩)]).2.1 =
      [⟨"WEC", 0, [⟨none, none, none, none, none, none, none, none, false⟩]⟩] ∧
    (dimRunLoop (dimStartIngestionEnter (dimInit "WEC"))
        [.raised, .raised, .fetched (some ⟨"WEC", 0,
          [⟨none, none, none, none, none, none, none, none, false⟩]⟩)]).1.is_running = true := by
  have h := (C2_loop_never_terminates_on_failure
      (dimStartIngestionEnter (dimInit "WEC"))
      (by simp [dimStartIngestionEnter])
      (by simp [dimStartIngestionEnter, dimInit])).2
    ⟨"WEC", 0, [⟨none, none, none, none, none, none, none, none, false⟩]⟩
    (by simp)
  exact ⟨h.1, h.2.2⟩

/-- C9 counterexample: `start_ingestion` has no already-running guard — a
second call on a running manager enters a second concurrent fetch loop, an
observable change beyond the first call, so `start()` is not idempotent. -/
theorem C9_counterexample_second_start :
    dimStartIngestionEnter (dimStartIngestionEnter (dimInit "WEC")) ≠
      dimStartIngestionEnter (dimInit "WEC") := by
  intro h
  have h2 := congrArg DataIngestionManager.activeLoops h
  simp [dimInit, dimStartIngestionEnter] at h2

/-- C9 amended: `stop()` on a stopped Ingestion Loop is a no-op (a second
`stop` after a successful one changes nothing, and `stop` on a
never-started WEC/IMSA manager returns it unchanged), but `start()` on a
running loop is not guarded: it leaves the running flag set and enters an
additional concurrent fetch loop. -/
theorem C9_amended_idempotence :
    (∀ m m' : DataIngestionManager, dimStopIngestion m = (m', none) →
      dimStopIngestion m' = (m', none)) ∧
    (∀ s : String, s = "WEC" ∨ s = "IMSA" →
      dimStopIngestion (dimInit s) = (dimInit s, none)) ∧
    (∀ m : DataIngestionManager, m.is_running = true →
      (dimStartIngestionEnter m).is_running = true ∧
      (dimStartIngestionEnter m).activeLoops = m.activeLoops + 1) := by
  refine ⟨?_, ?_, ?_⟩
  · intro m m' h
    cases hs : m.scraper with
    | none => simp [dimStopIngestion, hs] at h
    | some s =>
      simp only [dimStopIngestion, hs, Prod.mk.injEq] at h
      obtain ⟨h1, _⟩ := h
      subst h1
      simp [dimStopIngestion, scraperClose_idem]
  · rintro s (rfl | rfl) <;> rfl
  · intro m hm
    simp [dimStartIngestionEnter]

/-- Witness for C9's amended statement: a double stop on a started-and-
stopped WEC manager, a fresh-manager stop, and a double start. -/
theorem C9_amended_idempotence_witness :
    dimStopIngestion (dimInit "WEC") = (dimInit "WEC", none) :=
  C9_amended_idempotence.2.1 "WEC" (Or.inl rfl)

/-- The ingestion loop of a manager with no scraper bound: the attribute
error is caught every iteration, so the loop keeps running and the
callback is never invoked. -/
theorem dimRunLoop_noScraper (m : DataIngestionManager)
    (hm : m.scraper = none) (hrun : m.is_running = true)
    (os : List FetchOutcome) : dimRunLoop m os = (m, [], os.length) := by
  induction os with
  | nil => simp [dimRunLoop]
  | cons o os ih =>
    simp [dimRunLoop, dimLoopIter, hrun, hm, ih, Nat.add_comm]

/-- C10: a manager constructed with a series other than WEC or IMSA has no
scraper bound; once started, its loop never invokes the callback yet keeps
running (the attribute error is caught each iteration), while
`stop_ingestion` on it raises an uncaught `AttributeError`. -/
theorem C10_unknown_series (s : String) (hw : s ≠ "WEC") (hi : s ≠ "IMSA")
    (os : List FetchOutcome) :
    (dimInit s).scraper = none ∧
    (dimRunLoop (dimStartIngestionEnter (dimInit s)) os).2.1 = [] ∧
    (dimRunLoop (dimStartIngestionEnter (dimInit s)) os).1.is_running = true ∧
    (dimStopIngestion (dimStartIngestionEnter (dimInit s))).2 =
      some PyErr.attributeError := by
  have hscr : (dimInit s).scraper = none := by simp [dimInit, hw, hi]
  have hloop := dimRunLoop_noScraper (dimStartIngestionEnter (dimInit s))
    (by simp [dimStartIngestionEnter, hscr]) (by simp [dimStartIngestionEnter]) os
  refine ⟨hscr, ?_, ?_, ?_⟩
  · rw [hloop]
  · rw [hloop]; simp [dimStartIngestionEnter]
  · simp [dimStopIngestion, dimStartIngestionEnter, hscr]

/-- Witness for C10 at the concrete series `NASCAR`. -/
theorem C10_unknown_series_witness :
    (dimInit "NASCAR").scraper = none ∧
    (dimRunLoop (dimStartIngestionEnter (dimInit "NASCAR")) [.raised]).2.1 = [] ∧
    (dimStopIngestion (dimStartIngestionEnter (dimInit "NASCAR"))).2 =
      some PyErr.attributeError := by
  have h := C10_unknown_series "NASCAR" (by decide) (by decide) [.raised]
  exact ⟨h.1, h.2.1, h.2.2.2⟩

/-! ## Theorems about fetching and parsing -/

/-- C7 counterexample: a car row whose every selector lookup raises still
yields a gap-to-leader of `0.0` — the gap field degrades to a present zero
(`_safe_extract_gap` treats missing text as no-gap), not to the absent
value the claim requires of every field extraction failure. -/
theorem C7_counterexample_gap_degrades_to_zero :
    (wecCarData ⟨.raises, .raises, .raises, .raises, .raises, .raises,
        .raises, .raises, []⟩).gap_to_leader = some 0 ∧
    (wecCarData ⟨.raises, .raises, .raises, .raises, .raises, .raises,
        .raises, .raises, []⟩).gap_to_leader ≠ none := by
  exact ⟨rfl, by simp [wecCarData, safe_extract_gap, safe_extract]⟩

/-- C7 amended: a single snapshot fetch never raises and never propagates
a per-field parsing exception: with transport and document structure
intact the call returns a snapshot whose car records are built from every
row; a row all of whose field extractions raise yields a record with every
optional field absent except gap-to-leader, which degrades to `0.0` (the
gap is absent only when a present text fails to convert); the call returns
the empty result exactly on transport-level failure (timeout, connection
error, non-200 status) or an unparseable document; and an empty car list
is a successful result. -/
theorem C7_amended_fetch_never_raises :
    (∀ (now : ℚ) (rows : List RowData),
      fetch_live_data now (.response 200 (.parsed (.ok rows))) =
        some ⟨"WEC", now, rows.map wecCarData⟩) ∧
    (∀ cls : List (List Char),
      wecCarData ⟨.raises, .raises, .raises, .raises, .raises, .raises,
          .raises, .raises, cls⟩ =
        ⟨none, none, none, none, none, none, none, some 0,
          cls.contains ['p', 'i', 't']⟩) ∧
    (safe_extract_gap (.text ['x', 'y', 'z']) = none) ∧
    (∀ (now : ℚ) (tr : TransportResult),
      fetch_live_data now tr = none ↔
        (tr = .timeout ∨ tr = .connectionError ∨
         (∃ s d, tr = .response s d ∧ s ≠ 200) ∨
         (∃ s, tr = .response s .unparseable))) ∧
    (∀ now : ℚ,
      fetch_live_data now (.response 200 (.parsed (.ok []))) =
        some ⟨"WEC", now, []⟩) := by
  refine ⟨?_, ?_, by decide, ?_, ?_⟩
  · intro now rows
    simp [fetch_live_data, parse_wec_html]
  · intro cls
    rfl
  · intro now tr
    cases tr with
    | timeout => simp [fetch_live_data]
    | connectionError => simp [fetch_live_data]
    | response s d =>
      by_cases hs : s = 200
      · subst hs
        cases d with
        | unparseable => simp [fetch_live_data, parse_wec_html]
        | parsed sel => simp [fetch_live_data, parse_wec_html]
      · simp [fetch_live_data, hs]
  · intro now
    simp [fetch_live_data, parse_wec_html]

/-- Splitting a concatenation whose head part is separator-free. -/
theorem splitOnChar_append (sep : Char) (a b : List Char) (ha : sep ∉ a) :
    splitOnChar sep (a ++ sep :: b) = a :: splitOnChar sep b := by
  induction a with
  | nil => simp [splitOnChar]
  | cons c cs ih =>
    have hc : c ≠ sep := fun h => ha (h ▸ List.mem_cons_self c cs)
    have hcs : sep ∉ cs := fun h => ha (List.mem_cons_of_mem c h)
    simp only [List.cons_append, splitOnChar, List.append_eq]
    rw [ih hcs]
    simp [hc]

/-- A separator-free string splits into itself alone. -/
theorem splitOnChar_of_not_mem (sep : Char) (l : List Char) (h : sep ∉ l) :
    splitOnChar sep l = [l] := by
  induction l with
  | nil => simp [splitOnChar]
  | cons c cs ih =>
    have hc : c ≠ sep := fun he => h (he ▸ List.mem_cons_self c cs)
    have hcs : sep ∉ cs := fun he => h (List.mem_cons_of_mem c he)
    simp [splitOnChar, ih hcs, hc]

/-- C8 counterexample: the empty string matches none of the documented
patterns yet the gap parser maps it to `0.0` (falsy text is treated as
no-gap), and `1:2:3` matches none of them yet the time parser maps it to
`62.0` (only the first two colon-separated fields are consulted) — neither
yields the absent value the claim requires. -/
theorem C8_counterexample_gap_empty_and_triple_colon :
    safe_extract_gap (.text []) = some 0 ∧
    safe_extract_float (.text ['1', ':', '2', ':', '3']) = some 62 := by
  constructor
  · simp [safe_extract_gap, safe_extract, pyStrip, dropSpaces]
  · simp [safe_extract_float, safe_extract, pyStrip, dropSpaces, isPySpace,
      splitOnChar, pyInt, pyFloat, pyFloatBody, digitsValZ, allDigits,
      natValZ, dropDigits, takeDigits, natValQ, fracValQ]
    norm_num

/-- C8 amended: a time `M:S` whose colon-free parts parse as integer
minutes `m` and float seconds `q` converts to `m*60 + q` (only the first
two colon-separated fields are consulted); a plain numeric string converts
directly and an unconvertible colon-free string yields `None`; for gaps,
missing text, the empty string and the literal `Leader` all convert to
zero, `+N LAP(S)` converts to `N * 100` (the one-lap proxy), and any other
text converts as a float after deleting plus signs, yielding `None` when
that conversion fails — never an error. -/
theorem C8_amended_parsers :
    (∀ (mstr sstr : List Char) (m : ℤ) (q : ℚ),
      ':' ∉ mstr → ':' ∉ sstr →
      pyInt mstr = some m → pyFloat sstr = some q →
      pyStrip (mstr ++ ':' :: sstr) = mstr ++ ':' :: sstr →
      safe_extract_float (.text (mstr ++ ':' :: sstr)) =
        some ((m : ℚ) * 60 + q)) ∧
    (∀ (t : List Char) (q : ℚ), ':' ∉ t → pyStrip t = t →
      pyFloat t = some q → safe_extract_float (.text t) = some q) ∧
    (∀ t : List Char, ':' ∉ t → pyStrip t = t →
      pyFloat t = none → safe_extract_float (.text t) = none) ∧
    (safe_extract_gap .absent = some 0 ∧
     safe_extract_gap (.text []) = some 0 ∧
     safe_extract_gap (.text ['L', 'e', 'a', 'd', 'e', 'r']) = some 0) ∧
    (∀ (t tok : List Char) (n : ℤ), pyStrip t = t → t ≠ [] →
      t ≠ ['L', 'e', 'a', 'd', 'e', 'r'] →
      containsSeq ['L', 'A', 'P'] (upperChars t) = true →
      firstWsToken t = some tok → pyInt (stripPlus tok) = some n →
      safe_extract_gap (.text t) = some ((n : ℚ) * 100)) ∧
    (∀ t : List Char, pyStrip t = t → t ≠ [] →
      t ≠ ['L', 'e', 'a', 'd', 'e', 'r'] →
      containsSeq ['L', 'A', 'P'] (upperChars t) = false →
      (∀ q : ℚ, pyFloat (stripPlus t) = some q →
        safe_extract_gap (.text t) = some q) ∧
      (pyFloat (stripPlus t) = none → safe_extract_gap (.text t) = none)) := by
  refine ⟨?_, ?_, ?_, ?_, ?_, ?_⟩
  · intro mstr sstr m q hm hs hint hfloat hstrip
    have hmem : ':' ∈ mstr ++ ':' :: sstr := by simp
    simp only [safe_extract_float, safe_extract, hstrip]
    rw [splitOnChar_append ':' mstr sstr hm, splitOnChar_of_not_mem ':' sstr hs]
    simp [hmem, hint, hfloat]
  · intro t q ht hstrip hfloat
    simp [safe_extract_float, safe_extract, hstrip, ht, hfloat]
  · intro t ht hstrip hfloat
    simp [safe_extract_float, safe_extract, hstrip, ht, hfloat]
  · exact ⟨rfl, by decide, by decide⟩
  · intro t tok n hstrip hne hleader hlap htok hint
    simp [safe_extract_gap, safe_extract, hstrip, hne, hleader, hlap, htok, hint]
  · intro t hstrip hne hleader hlap
    constructor
    · intro q hq
      simp [safe_extract_gap, safe_extract, hstrip, hne, hleader, hlap, hq]
    · intro hq
      simp [safe_extract_gap, safe_extract, hstrip, hne, hleader, hlap, hq]

/-- Witness for C8's amended statement at concrete inputs:
`1:23.456` is `83.456` seconds and `+2 LAPS` is a `200`-second gap. -/
theorem C8_amended_parsers_witness :
    safe_extract_float (.text ['1', ':', '2', '3', '.', '4', '5', '6']) =
      some (10432 / 125) ∧
    safe_extract_gap (.text ['+', '2', ' ', 'L', 'A', 'P', 'S']) = some 200 := by
  constructor
  · have hf : pyFloat ['2', '3', '.', '4', '5', '6'] = some (2932 / 125) := by
      simp [pyFloat, pyFloatBody, pyStrip, dropSpaces, dropDigits, takeDigits,
        allDigits, natValQ, fracValQ, isPySpace]
      norm_num
    have h := C8_amended_parsers.1 ['1'] ['2', '3', '.', '4', '5', '6']
      1 (2932 / 125) (by decide) (by decide) (by decide) hf (by decide)
    rw [List.cons_append, List.nil_append] at h
    rw [h]
    norm_num
  · have h := C8_amended_parsers.2.2.2.2.1 ['+', '2', ' ', 'L', 'A', 'P', 'S']
      ['+', '2'] 2 (by decide) (by decide) (by decide) (by decide)
      (by decide) (by decide)
    rw [h]
    norm_num

/-! ## Theorems about the Race Monitor -/

/-- Deactivating every row leaves no active row. -/
theorem activeCount_deactivateAll (db : Db) :
    activeCount (deactivateAll db) = 0 := by
  induction db with
  | nil => rfl
  | cons r rs ih =>
    simp only [deactivateAll, List.map_cons, activeCount, List.filter_cons] at ih ⊢
    simp [ih]

/-- Active rows of a concatenation. -/
theorem activeCount_append (a b : Db) :
    activeCount (a ++ b) = activeCount a + activeCount b := by
  simp [activeCount, List.filter_append]

/-- Marking a row ended never increases the number of active rows. -/
theorem activeCount_markEnded (now : ℚ) (db : Db) (i : ℕ) :
    activeCount (markEnded now db i) ≤ activeCount db := by
  induction db generalizing i with
  | nil => simp [markEnded]
  | cons r rs ih =>
    cases i with
    | zero =>
      cases hr : r.is_active <;>
        simp [markEnded, activeCount, List.filter_cons, hr]
    | succ j =>
      have := ih j
      cases hr : r.is_active <;>
        simp [markEnded, activeCount, List.filter_cons, hr] <;>
        simpa [activeCount] using this

/-- The database after `RaceMonitor.stop_ingestion`: unchanged, or with the
first active row marked ended. -/
theorem monitorStop_db_cases (st : MonitorState) (db : Db) (now : ℚ)
    (ok : Bool) :
    (monitorStopIngestion st db now ok).2.1 = db ∨
    ∃ i, findFirstActive db = some i ∧
      (monitorStopIngestion st db now ok).2.1 = markEnded now db i := by
  cases hm : st.ingestion_manager with
  | none => left; simp [monitorStopIngestion, hm]
  | some m =>
    rcases hs : dimStopIngestion m with ⟨m1, err⟩
    cases err with
    | none =>
      cases hf : findFirstActive db with
      | none => left; simp [monitorStopIngestion, hm, hs, hf]
      | some i =>
        right; exact ⟨i, rfl, by simp [monitorStopIngestion, hm, hs, hf]⟩
    | some e => left; simp [monitorStopIngestion, hm, hs]

/-- Every row of a deactivated table is inactive. -/
theorem deactivateAll_inactive (db : Db) :
    ∀ a ∈ deactivateAll db, a.is_active = false := by
  intro a ha
  simp only [deactivateAll, List.mem_map] at ha
  obtain ⟨b, _, rfl⟩ := ha
  rfl

/-- The database after `RaceMonitor.start_ingestion` holds exactly one
active row (all rows deactivated, one fresh active row committed), whatever
happens afterwards to the manager construction. -/
theorem activeCount_start (st : MonitorState) (db : Db) (now : ℚ) (ok : Bool)
    (race : RaceEvent) :
    activeCount (monitorStartIngestion st db now ok race).2.1 = 1 := by
  unfold monitorStartIngestion
  cases hk : dimCallInitKw [("series", race.series), ("timing_url", race.timing_url)] with
  | error e =>
    simp only [hk]
    rw [activeCount_append, activeCount_deactivateAll]
    simp [activeCount, List.filter_cons]
  | ok mgr =>
    simp only [hk, dimCallStart, if_neg (by decide : ¬(0 = 1))]
    rw [activeCount_append, activeCount_deactivateAll]
    simp [activeCount, List.filter_cons]

/-- One monitor poll preserves `at most one active race row`. -/
theorem activeCount_step (races : List RaceEvent) (now : ℚ) (ok : Bool)
    (st : MonitorState) (db : Db) (h : activeCount db ≤ 1) :
    activeCount (monitorCheckForLiveRace races now ok st db).db ≤ 1 := by
  have hstop : ∀ st' : MonitorState,
      activeCount (monitorStopIngestion st' db now ok).2.1 ≤ 1 := by
    intro st'
    rcases monitorStop_db_cases st' db now ok with hdb | ⟨i, _, hdb⟩
    · rw [hdb]; exact h
    · rw [hdb]; exact le_trans (activeCount_markEnded now db i) h
  unfold monitorCheckForLiveRace
  cases hn : get_next_race races now with
  | none => exact hstop st
  | some race =>
    by_cases hlive : monitorIsLive now race.date
    · by_cases hcond : st.ingestion_manager = none ∨
          st.current_race_name ≠ some race.name
      · simp only [hlive, if_true, hcond, if_pos]
        exact le_of_eq (activeCount_start st db now ok race)
      · simp only [hlive, if_true, hcond, if_neg, not_false_iff]
        simpa using h
    · by_cases hms : st.ingestion_manager.isSome
      · simp only [hlive, if_false, Bool.false_eq_true, hms, if_pos]
        exact hstop st
      · simp only [hlive, if_false, Bool.false_eq_true, hms, if_neg]
        simpa using h

/-- A poll that still sees the bound event as next and live does nothing:
the self-transition `LIVE → LIVE` of the state machine. -/
theorem monitorStep_no_action (races : List RaceEvent) (now : ℚ) (ok : Bool)
    (st : MonitorState) (db : Db) (race : RaceEvent) (m : DataIngestionManager)
    (hmgr : st.ingestion_manager = some m)
    (hname : st.current_race_name = some race.name)
    (hnext : get_next_race races now = some race)
    (hlive : monitorIsLive now race.date = true) :
    monitorCheckForLiveRace races now ok st db = ⟨st, db, 0, false⟩ := by
  have hcond : ¬(st.ingestion_manager = none ∨
      st.current_race_name ≠ some race.name) := by
    rintro (hc | hc)
    · rw [hmgr] at hc; exact Option.noConfusion hc
    · exact hc hname
  unfold monitorCheckForLiveRace
  rw [hnext]
  simp only [hlive, if_true, hcond, if_neg, not_false_iff]

/-- C5: for every sequence of monitor poll outcomes, at most one race row
is active after each step (the monitor's single optional
`ingestion_manager` field makes the one-ActiveSession part structural),
and a poll during which the same bound event is still reported and live
performs no action: the step returns the state and database unchanged,
stops nothing and starts nothing. -/
theorem C5_at_most_one_session :
    (∀ (polls : List PollInput) (st : MonitorState) (db : Db),
      activeCount db ≤ 1 → activeCount (runMonitor st db polls).2 ≤ 1) ∧
    (∀ (races : List RaceEvent) (now : ℚ) (ok : Bool) (st : MonitorState)
        (db : Db) (race : RaceEvent) (m : DataIngestionManager),
      st.ingestion_manager = some m →
      st.current_race_name = some race.name →
      get_next_race races now = some race →
      monitorIsLive now race.date = true →
      monitorCheckForLiveRace races now ok st db = ⟨st, db, 0, false⟩) := by
  constructor
  · intro polls
    induction polls with
    | nil => intro st db h; simpa [runMonitor] using h
    | cons p ps ih =>
      intro st db h
      exact ih _ _ (activeCount_step p.races p.now p.exportOk st db h)
  · intro races now ok st db race m hmgr hname hnext hlive
    exact monitorStep_no_action races now ok st db race m hmgr hname hnext hlive


/-- Witness for C5: one concrete poll against an empty table stays within
the invariant, and a concrete bound-and-live poll is a no-op. -/
theorem C5_at_most_one_session_witness :
    activeCount (runMonitor ⟨none, none, true⟩ [] [⟨[sampleRace], 50, true⟩]).2 ≤ 1 ∧
    monitorCheckForLiveRace [sampleRace] 50 true
        ⟨some (dimInit "WEC"), some "6 Hours of Qatar", true⟩ [] =
      ⟨⟨some (dimInit "WEC"), some "6 Hours of Qatar", true⟩, [], 0, false⟩ := by
  constructor
  · exact C5_at_most_one_session.1 [⟨[sampleRace], 50, true⟩]
      ⟨none, none, true⟩ [] (by decide)
  · refine C5_at_most_one_session.2 [sampleRace] 50 true _ [] sampleRace
      (dimInit "WEC") rfl rfl ?_ ?_
    · decide
    · rw [monitorIsLive_iff]
      simp only [sampleRace, preRollMinutes, maxDurationMinutes]
      norm_num

/-- C4: with a session bound to an event (which, having been bound while
live, is at or past its pre-roll instant — hypothesis `hpre`) and schedule
names unique, a poll stops the bound Ingestion Loop exactly when the
event's liveness window has ended or `get_next_race` no longer reports
that event (it reports only events starting strictly after `now`); and
while the bound event is still reported and live, the poll changes
nothing. -/
theorem C4_stop_exactly_when_ended_or_unreported (races : List RaceEvent)
    (now : ℚ) (ok : Bool) (st : MonitorState) (db : Db) (race : RaceEvent)
    (m : DataIngestionManager)
    (hmgr : st.ingestion_manager = some m)
    (hname : st.current_race_name = some race.name)
    (hpre : -(preRollMinutes * 60) ≤ now - race.date)
    (huniq : ∀ r ∈ races, r.name = race.name → r = race) :
    ((monitorCheckForLiveRace races now ok st db).stoppedLoop = true ↔
      (maxDurationMinutes * 60 < now - race.date ∨
        get_next_race races now ≠ some race)) ∧
    (get_next_race races now = some race →
      monitorIsLive now race.date = true →
      monitorCheckForLiveRace races now ok st db = ⟨st, db, 0, false⟩) := by
  refine ⟨?_, fun hnext hlive =>
    monitorStep_no_action races now ok st db race m hmgr hname hnext hlive⟩
  have hsome : st.ingestion_manager.isSome = true := by rw [hmgr]; rfl
  cases hn : get_next_race races now with
  | none =>
    have hstopped : (monitorCheckForLiveRace races now ok st db).stoppedLoop = true := by
      unfold monitorCheckForLiveRace
      rw [hn]
      exact hsome
    simp only [hstopped, hn]
    simp
  | some F =>
    by_cases hFr : F = race
    · subst hFr
      have hfut : now < F.date := get_next_race_future hn
      have hlive : monitorIsLive now F.date = true := by
        rw [monitorIsLive_iff]
        refine ⟨hpre, ?_⟩
        simp only [maxDurationMinutes]
        linarith
      have hstep := monitorStep_no_action races now ok st db F m hmgr hname hn hlive
      rw [hstep]
      have h1 : ¬(maxDurationMinutes * 60 < now - F.date) := by
        simp only [maxDurationMinutes]
        linarith
      simp [h1, hn]
    · have hF : F ∈ races := get_next_race_mem hn
      have hFn : F.name ≠ race.name := fun h => hFr (huniq F hF h)
      have hrhs : get_next_race races now ≠ some race := by
        rw [hn]
        intro hcontr
        exact hFr (Option.some_injective _ hcontr)
      have hstopped : (monitorCheckForLiveRace races now ok st db).stoppedLoop = true := by
        unfold monitorCheckForLiveRace
        rw [hn]
        by_cases hlF : monitorIsLive now F.date
        · have hcond : st.ingestion_manager = none ∨
              st.current_race_name ≠ some F.name := by
            right
            rw [hname]
            intro hc
            exact hFn (Option.some_injective _ hc).symm
          simp only [hlF, if_true, hcond, if_pos]
          exact hsome
        · simp only [hlF, Bool.false_eq_true, if_false, hsome, if_pos]
      rw [hstopped]
      simp [hn, hFr]

/-- Witness for C4: the concrete bound-and-live state — the loop is not
stopped and the poll is a no-op. -/
theorem C4_stop_exactly_when_ended_or_unreported_witness :
    monitorCheckForLiveRace [sampleRace] 50 true
        ⟨some (dimInit "WEC"), some "6 Hours of Qatar", true⟩ [] =
      ⟨⟨some (dimInit "WEC"), some "6 Hours of Qatar", true⟩, [], 0, false⟩ := by
  have h := C4_stop_exactly_when_ended_or_unreported [sampleRace] 50 true
    ⟨some (dimInit "WEC"), some "6 Hours of Qatar", true⟩ [] sampleRace
    (dimInit "WEC") rfl rfl
    (by simp only [sampleRace, preRollMinutes]; norm_num)
    (by intro r hr _; simpa using hr)
  exact h.2 (by decide) (by
    rw [monitorIsLive_iff]
    simp only [sampleRace, preRollMinutes, maxDurationMinutes]
    norm_num)

/-- Marking row `i` ended is visible at index `i`. -/
theorem markEnded_getElem (now : ℚ) (db : Db) (i : ℕ) (row : RaceRow)
    (h : db[i]? = some row) :
    (markEnded now db i)[i]? =
      some { row with is_active := false, end_time := some now } := by
  induction db generalizing i with
  | nil => simp at h
  | cons r rs ih =>
    cases i with
    | zero =>
      simp only [List.getElem?_cons_zero, Option.some.injEq] at h
      subst h
      simp [markEnded]
    | succ j =>
      simp only [List.getElem?_cons_succ] at h
      simpa [markEnded] using ih j h

/-- C6: when the monitor stops ingestion with a session bound (to a
manager whose scraper exists, i.e. a WEC/IMSA one) and an active race row
present, then before the call returns that row is marked ended (active
flag cleared, end timestamp set), the export collaborator is invoked
exactly once, the export outcome does not change the result (its failure
is only logged), the monitor keeps running, and a repeated stop performs
no further export and changes nothing. -/
theorem C6_stop_marks_ended_exports_once (st : MonitorState) (db : Db)
    (now : ℚ) (ok : Bool) (m : DataIngestionManager) (i : ℕ) (row : RaceRow)
    (hmgr : st.ingestion_manager = some m)
    (hscr : m.scraper.isSome = true)
    (hfind : findFirstActive db = some i)
    (hrow : db[i]? = some row) :
    ((monitorStopIngestion st db now ok).2.1)[i]? =
      some { row with is_active := false, end_time := some now } ∧
    (monitorStopIngestion st db now ok).2.2 = 1 ∧
    (monitorStopIngestion st db now ok).1.is_running = st.is_running ∧
    (monitorStopIngestion st db now ok).1.ingestion_manager = none ∧
    monitorStopIngestion st db now true = monitorStopIngestion st db now false ∧
    monitorStopIngestion (monitorStopIngestion st db now ok).1
        (monitorStopIngestion st db now ok).2.1 now ok =
      ((monitorStopIngestion st db now ok).1,
        (monitorStopIngestion st db now ok).2.1, 0) := by
  obtain ⟨s, hs⟩ := Option.isSome_iff_exists.mp hscr
  have hstop : dimStopIngestion m =
      ({ m with is_running := false, scraper := some (scraperClose s) }, none) := by
    simp [dimStopIngestion, hs]
  have hres : monitorStopIngestion st db now ok =
      ({ st with ingestion_manager := none, current_race_name := none },
        markEnded now db i, 1) := by
    simp [monitorStopIngestion, hmgr, hstop, hfind]
  refine ⟨?_, ?_, ?_, ?_, rfl, ?_⟩
  · rw [hres]
    exact markEnded_getElem now db i row hrow
  · rw [hres]
  · rw [hres]
  · rw [hres]
  · rw [hres]
    simp [monitorStopIngestion]

/-- Witness for C6 on a concrete bound session and one active row. -/
theorem C6_stop_marks_ended_exports_once_witness :
    ((monitorStopIngestion ⟨some (dimInit "WEC"), some "R", true⟩
        [⟨"WEC", "R", "T", 0, true, none⟩] 7 true).2.1)[0]? =
      some ⟨"WEC", "R", "T", 0, false, some 7⟩ ∧
    (monitorStopIngestion ⟨some (dimInit "WEC"), some "R", true⟩
        [⟨"WEC", "R", "T", 0, true, none⟩] 7 true).2.2 = 1 := by
  have h := C6_stop_marks_ended_exports_once
    ⟨some (dimInit "WEC"), some "R", true⟩ [⟨"WEC", "R", "T", 0, true, none⟩]
    7 true (dimInit "WEC") 0 ⟨"WEC", "R", "T", 0, true, none⟩
    rfl (by decide) (by decide) (by decide)
  exact ⟨h.1, h.2.1⟩

/-- C1: the Monitor's start action does not succeed.  `start_ingestion`
constructs `DataIngestionManager(series=..., timing_url=...)`, but the
constructor accepts no `timing_url` keyword (and the subsequent
`start_ingestion()` call would pass no `callback`), so a `TypeError` is
raised, caught, and logged — the poll that finds the next event live with
no session bound commits an active race row, yet afterwards no
ActiveSession exists and no ingestion loop is running. -/
theorem C1_code_bug_start_raises_typeerror :
    dimCallInitKw [("series", sampleRace.series),
        ("timing_url", sampleRace.timing_url)] =
      Except.error PyErr.typeError ∧
    dimCallStart (dimInit "WEC") 0 = Except.error PyErr.typeError ∧
    (monitorCheckForLiveRace [sampleRace] 50 true
        ⟨none, none, true⟩ []).st.ingestion_manager = none ∧
    (monitorCheckForLiveRace [sampleRace] 50 true
        ⟨none, none, true⟩ []).st.current_race_name = none ∧
    (monitorCheckForLiveRace [sampleRace] 50 true ⟨none, none, true⟩ []).db =
      [⟨"WEC", "6 Hours of Qatar", "Losail International Circuit",
        100, true, none⟩] := by
  have hnext : get_next_race [sampleRace] 50 = some sampleRace := by decide
  have hlive : monitorIsLive 50 sampleRace.date = true := by
    rw [monitorIsLive_iff]
    simp only [sampleRace, preRollMinutes, maxDurationMinutes]
    norm_num
  have hstep : monitorCheckForLiveRace [sampleRace] 50 true ⟨none, none, true⟩ [] =
      ⟨⟨none, none, true⟩,
        [⟨"WEC", "6 Hours of Qatar", "Losail International Circuit",
          100, true, none⟩], 0, false⟩ := by
    unfold monitorCheckForLiveRace
    rw [hnext]
    simp only [hlive, if_true, true_or]
    unfold monitorStartIngestion monitorStopIngestion
    rfl
  exact ⟨rfl, rfl, by rw [hstep], by rw [hstep], by rw [hstep]⟩

end EnduranceTracker
